import Mathlib

/-!
Verification of the neutab / newtabgen icon asset pipeline.

Shallow embedding of the icon pipeline of the `fr33zing/neutab` repository
(crates `neutab` and `newtabgen`): deterministic icon identities (SHA-1,
base32hex, lowercased, truncated), the site-icon disk cache with 7-day TTL,
the site-icon resolver selection rule, image brightness / inversion logic,
resize dimension computation, the SVG symbol extractor, and the repository
synchronization merge logic.  Machine integers are modelled as `Nat` with
explicit reduction `% 2 ^ 32` where overflow matters; `f32` values that only
ever meet exact comparisons are modelled as `ℚ`; fallible operations return
`Except` / `Option`.
-/

namespace Neutab

/-! ## IconIdentity: `util::sha1_base32`

`sha1_base32(bytes)` computes SHA-1 of the input, encodes the 20-byte digest
with `BASE32HEX_NOPAD`, lowercases it and keeps the first 8 bytes
(`src/newtabgen/src/util.rs`, `src/neutab/src/util.rs`). -/

/-- Reduce to a 32-bit word, as all SHA-1 word arithmetic is `u32`. -/
def w32 (n : Nat) : Nat := n % 4294967296

/-- 32-bit left rotation by `b` of a word `n < 2^32`. -/
def rotl (b n : Nat) : Nat := w32 (n <<< b) ||| (n >>> (32 - b))

/-- The five-word SHA-1 state. -/
structure Sha1State where
  a : Nat
  b : Nat
  c : Nat
  d : Nat
  e : Nat
deriving Repr, DecidableEq

/-- SHA-1 initial state (FIPS 180-4). -/
def sha1Init : Sha1State :=
  ⟨0x67452301, 0xEFCDAB89, 0x98BADCFE, 0x10325476, 0xC3D2E1F0⟩

/-- Round function `f` for round `i`. -/
def sha1F (i : Nat) (b c d : Nat) : Nat :=
  if i < 20 then (b &&& c) ||| ((b ^^^ 4294967295) &&& d)
  else if i < 40 then b ^^^ c ^^^ d
  else if i < 60 then (b &&& c) ||| (b &&& d) ||| (c &&& d)
  else b ^^^ c ^^^ d

/-- Round constant `k` for round `i`. -/
def sha1K (i : Nat) : Nat :=
  if i < 20 then 0x5A827999
  else if i < 40 then 0x6ED9EBA1
  else if i < 60 then 0x8F1BBCDC
  else 0xCA62C1D6

/-- Big-endian 32-bit words from a 64-byte block. -/
def blockWords (block : List Nat) : Array Nat :=
  (List.range 16).foldl
    (fun a i =>
      a.push
        ((block.getD (4 * i) 0) <<< 24 + (block.getD (4 * i + 1) 0) <<< 16 +
          (block.getD (4 * i + 2) 0) <<< 8 + block.getD (4 * i + 3) 0))
    #[]

/-- Extend the 16 message words to the 80-entry schedule:
`w[i] = rotl1 (w[i-3] xor w[i-8] xor w[i-14] xor w[i-16])`. -/
def extendWords (ws : Array Nat) : Array Nat :=
  (List.range 64).foldl
    (fun a _ =>
      let n := a.size
      a.push
        (rotl 1
          ((a.getD (n - 3) 0) ^^^ (a.getD (n - 8) 0) ^^^ (a.getD (n - 14) 0) ^^^
            (a.getD (n - 16) 0))))
    ws

/-- One SHA-1 round. -/
def sha1Round (w : Array Nat) (st : Sha1State) (i : Nat) : Sha1State :=
  let temp := w32 (rotl 5 st.a + sha1F i st.b st.c st.d + st.e + sha1K i + w.getD i 0)
  ⟨temp, st.a, rotl 30 st.b, st.c, st.d⟩

/-- Process one 64-byte block. -/
def sha1Block (h : Sha1State) (block : List Nat) : Sha1State :=
  let w := extendWords (blockWords block)
  let st := (List.range 80).foldl (sha1Round w) h
  ⟨w32 (h.a + st.a), w32 (h.b + st.b), w32 (h.c + st.c), w32 (h.d + st.d),
    w32 (h.e + st.e)⟩

/-- Split a list into `⌈length / n⌉` consecutive chunks of `n`. -/
def chunksOf (n : Nat) (l : List Nat) : List (List Nat) :=
  (List.range ((l.length + n - 1) / n)).map (fun i => (l.drop (n * i)).take n)

/-- Big-endian bytes of `n`, `k` bytes. -/
def beBytes (k n : Nat) : List Nat :=
  (List.range k).map (fun i => (n >>> (8 * (k - 1 - i))) % 256)

/-- SHA-1 padding: append `0x80`, zero bytes to 56 mod 64, then the bit length
as a 64-bit big-endian integer. -/
def sha1Pad (msg : List Nat) : List Nat :=
  let l := msg.length
  let zeros := (119 - l % 64) % 64
  msg ++ [0x80] ++ List.replicate zeros 0 ++ beBytes 8 (8 * l)

/-- SHA-1 digest (20 bytes) of a byte list. -/
def sha1 (msg : List Nat) : List Nat :=
  let final := (chunksOf 64 (sha1Pad msg)).foldl sha1Block sha1Init
  beBytes 4 final.a ++ beBytes 4 final.b ++ beBytes 4 final.c ++ beBytes 4 final.d ++
    beBytes 4 final.e

/-- The `base32hex` alphabet, already lowercased (the code lowercases the
upper-case output of `data_encoding::BASE32HEX_NOPAD`). -/
def base32hexChar (n : Nat) : Char :=
  "0123456789abcdefghijklmnopqrstuv".toList.getD n '0'

/-- MSB-first bits of a byte. -/
def byteBits (b : Nat) : List Bool :=
  (List.range 8).map (fun i => (b >>> (7 - i)) % 2 = 1)

/-- Value of an MSB-first bit chunk (chunks shorter than 5 are padded with
zero bits on the right, as in RFC 4648). -/
def bitsVal (bits : List Bool) : Nat :=
  (bits ++ List.replicate 5 false).take 5 |>.foldl (fun acc b => 2 * acc + cond b 1 0) 0

/-- Split a list of bits into chunks of 5 for base32 coding. -/
def bitChunks (bits : List Bool) : List (List Bool) :=
  (List.range ((bits.length + 4) / 5)).map (fun i => (bits.drop (5 * i)).take 5)

/-- `BASE32HEX_NOPAD` of a byte list, lowercased. -/
def base32hexNopadLower (bytes : List Nat) : String :=
  ⟨(bitChunks (bytes.flatMap byteBits)).map (fun c => base32hexChar (bitsVal c))⟩

/-- UTF-8 encoding of one scalar value (RFC 3629). -/
def utf8Bytes (c : Char) : List Nat :=
  let n := c.toNat
  if n < 0x80 then [n]
  else if n < 0x800 then [0xC0 ||| (n >>> 6), 0x80 ||| (n &&& 0x3F)]
  else if n < 0x10000 then
    [0xE0 ||| (n >>> 12), 0x80 ||| ((n >>> 6) &&& 0x3F), 0x80 ||| (n &&& 0x3F)]
  else
    [0xF0 ||| (n >>> 18), 0x80 ||| ((n >>> 12) &&& 0x3F), 0x80 ||| ((n >>> 6) &&& 0x3F),
      0x80 ||| (n &&& 0x3F)]

/-- UTF-8 bytes of a string, as the Rust code hashes `str.as_bytes()`. -/
def strBytes (s : String) : List Nat := s.toList.flatMap utf8Bytes

/-- `util::sha1_base32`: SHA-1, base32hex without padding, lowercased, first 8
bytes (all characters are ASCII, so byte slicing is character slicing). -/
def sha1_base32 (bytes : List Nat) : String :=
  String.mk ((base32hexNopadLower (sha1 bytes)).toList.take 8)

/-- `site_icon_class`: CSS class for a site icon URL. -/
def site_icon_class (url : String) : String :=
  "ico-" ++ sha1_base32 (strBytes url)

/-- `svg_icons::svg_icon_id`: symbol id from icon name and style, hashing the
single string `name ++ " " ++ style`. -/
def svg_icon_id (icon_name icon_style : String) : String :=
  "svg-" ++ sha1_base32 (strBytes (icon_name ++ " " ++ icon_style))

/-! ## Pixels and `avg_brightness`

`avg_brightness` (`src/neutab/src/util.rs`, duplicated in
`src/newtabgen/src/builder/site_icons.rs`) filters RGBA pixels by
`p[3] > 32`, maps each to `p[0] / 3 + p[1] / 3 + p[2] / 3` (`u8` integer
division per channel), and folds `avg + f32::from(val) / len / 255`.
`f32` arithmetic is modelled exactly over `ℚ`. -/

/-- An RGBA8 pixel; channels are `u8` values (`< 256` in every real image). -/
structure Pixel where
  r : Nat
  g : Nat
  b : Nat
  a : Nat
deriving Repr, DecidableEq

/-- Per-pixel value `p[0] / 3 + p[1] / 3 + p[2] / 3`: truncated `u8` division
on each channel separately. -/
def pixelThirds (p : Pixel) : Nat := p.r / 3 + p.g / 3 + p.b / 3

/-- The `filter_map`: values of pixels whose alpha exceeds 32. -/
def visibleValues (ps : List Pixel) : List Nat :=
  ps.filterMap (fun p => if 32 < p.a then some (pixelThirds p) else none)

/-- `avg_brightness`: fold `avg + val / len / 255` over the visible values,
starting from `0` (so an image with no visible pixel yields `0` and the
division by `len = 0` is never executed on a counted value). -/
def avg_brightness (ps : List Pixel) : ℚ :=
  (visibleValues ps).foldl
    (fun (avg : ℚ) (val : Nat) =>
      avg + (val : ℚ) / ((visibleValues ps).length : ℚ) / 255) 0

/-- Modelled from the spec: the brightness §4.4 describes — the arithmetic
mean, over pixels whose alpha exceeds 32, of `(R+G+B)/3` normalized by 255
(exact rational arithmetic, no per-channel truncation); `0` when no pixel is
counted. For refinement comparison with `avg_brightness`. -/
def avg_brightness_specMean (ps : List Pixel) : ℚ :=
  let vals := ps.filterMap
    (fun p => if 32 < p.a then some ((((p.r : ℚ) + p.g + p.b) / 3) / 255) else none)
  if vals.length = 0 then 0 else vals.sum / (vals.length : ℚ)

/-! ## Inversion decision

`build_site_icons`: `threshold = 0.25`; invert when
`(dark && brightness < threshold) || (!dark && brightness > 1 - threshold)`,
guarded by `invert_low_contrast_icons`.  `0.25` and `0.75 = 1 - 0.25` are
exactly representable in `f32`, so `ℚ` comparisons are faithful. -/

/-- Whether the icon gets inverted, from the decoded image's brightness. -/
def invert_decision (invert_low_contrast_icons dark : Bool) (brightness : ℚ) : Bool :=
  invert_low_contrast_icons &&
    ((dark && decide (brightness < 1 / 4)) ||
      (!dark && decide (brightness > 1 - 1 / 4)))

/-- `DynamicImage::invert` on an RGBA8 image: each RGB channel is replaced by
its complement, alpha preserved. -/
def invertPixel (p : Pixel) : Pixel := ⟨255 - p.r, 255 - p.g, 255 - p.b, p.a⟩

/-- The inversion step of `build_site_icons` applied to the resized image. -/
def apply_inversion (invert_low_contrast_icons dark : Bool) (img : List Pixel) :
    List Pixel :=
  if invert_decision invert_low_contrast_icons dark (avg_brightness img) then
    img.map invertPixel
  else img

/-! ## Site-icon errors (`SiteIconError`, newtabgen variant superset) -/

/-- `SiteIconError`; payloads reduced to the offending path / URL. -/
inductive SiteIconError where
  | output
  | cacheDir
  | cacheWrite (path : String)
  | cacheRead (path : String)
  | cacheDecode (path : String)
  | httpClient
  | urlLoad (url : String)
  | iconNotFound (url : String)
  | iconRequest (url : String)
  | iconDecode (url : String)
  | iconEncode (url : String)
deriving Repr, DecidableEq

/-! ## Resolver selection (`icon_remote`)

Candidate entries as produced by the `site_icons` crate: a URL (here only its
path matters, as bytes, since `str::contains` is a byte search) and the
sniffed format info. -/

/-- Declared icon format metadata (`site_icons::IconInfo`, sizes dropped). -/
inductive IconInfo where
  | png
  | jpeg
  | ico
  | svg
deriving Repr, DecidableEq

/-- A candidate icon entry: URL path bytes plus format info. -/
structure IconEntry where
  path : List Nat
  info : IconInfo
deriving Repr, DecidableEq

/-- Byte-level substring test, mirroring Rust `str::contains` on bytes. -/
def containsSeq (hay needle : List Nat) : Bool :=
  (List.range (hay.length + 1)).any (fun i => needle.isPrefixOf (hay.drop i))

/-- The needle of the favicon preference check. -/
def faviconNeedle : List Nat := strBytes "favicon.ico"

/-- The selection rule of `icon_remote`: first entry whose URL path contains
`favicon.ico`, otherwise first entry whose info is not SVG. -/
def choose_icon (entries : List IconEntry) : Option IconEntry :=
  match entries.find? (fun i => containsSeq i.path faviconNeedle) with
  | some i => some i
  | none => entries.find? (fun i => !(i.info == IconInfo.svg))

/-- Outcome of selection followed by the format `match` that feeds the image
decoder; `panicked` is the `unreachable!("SVGs should be filtered out")`
branch. -/
inductive RemoteSelect where
  | notFound
  | panicked
  | decodes (fmt : IconInfo)
deriving Repr, DecidableEq

/-- `icon_remote` up to the decoder hand-off: select an entry
(`IconNotFound` when none survives), then dispatch on its format. -/
def icon_remote_select (entries : List IconEntry) : RemoteSelect :=
  match choose_icon entries with
  | none => RemoteSelect.notFound
  | some i =>
    match i.info with
    | IconInfo.svg => RemoteSelect.panicked
    | fmt => RemoteSelect.decodes fmt

/-! ## Site-icon cache lookup (`icon_cached`) and write-back (`icon`)

The filesystem and codec are modelled as an environment: whether the cache
file exists, the `fs::metadata` / `created()` / `elapsed()` chain (each step
fallible), the `remove_file` outcome, the file content (readable or not), and
a decode function. -/

/-- The 7-day TTL in seconds (`604800` in `icon_cached`). -/
def ttlSecs : Nat := 604800

/-- State of the cached file for one lookup. -/
structure CacheFile where
  pathExists : Bool
  metadata : Option (Option (Option Nat))
  removeOk : Bool
  content : Option (List Nat)

/-- Result of a cache lookup, plus whether the stale file's removal was
attempted. -/
structure CacheGetResult where
  result : Except SiteIconError (Option (List Pixel))
  removeAttempted : Bool

/-- `icon_cached`: missing file is a miss; `expired` is true only when the
whole metadata chain succeeds and `elapsed ≥ 604800` (any failure breaks to
`false`, failing open); an expired entry is removed (failure only warns) and
reported as a miss; otherwise the content is read and decoded, erroring with
`CacheRead` / `CacheDecode`. -/
def icon_cached (path : String) (file : CacheFile)
    (decode : List Nat → Option (List Pixel)) : CacheGetResult :=
  if !file.pathExists then ⟨Except.ok none, false⟩
  else
    let expired := match file.metadata with
      | some (some (some elapsed)) => decide (ttlSecs ≤ elapsed)
      | _ => false
    if expired then ⟨Except.ok none, true⟩
    else
      match file.content with
      | none => ⟨Except.error (SiteIconError.cacheRead path), false⟩
      | some bytes =>
        match decode bytes with
        | none => ⟨Except.error (SiteIconError.cacheDecode path), false⟩
        | some img => ⟨Except.ok (some img), false⟩

/-- Environment of one `icon(url)` call: cache file state, codec, remote
fetch outcome, PNG encoder, and whether the cache write succeeds. -/
structure IconEnv where
  cacheFile : CacheFile
  decode : List Nat → Option (List Pixel)
  remote : Except SiteIconError (List Pixel)
  pngEncode : List Pixel → List Nat
  cacheWriteOk : Bool

/-- Result of `icon(url)`: the image or error, and the cache writes
performed (key, bytes). -/
structure IconResult where
  result : Except SiteIconError (List Pixel)
  cacheWrites : List (String × List Nat)

/-- `cache_icon`: save the decoded icon as PNG under
`site_icons/<sha1_base32(url)>` (`CacheWrite` on failure). -/
def cache_icon (url : String) (img : List Pixel) (env : IconEnv) :
    Except SiteIconError (List (String × List Nat)) :=
  if env.cacheWriteOk then
    Except.ok [(sha1_base32 (strBytes url), env.pngEncode img)]
  else Except.error (SiteIconError.cacheWrite (sha1_base32 (strBytes url)))

/-- `icon`: cached lookup first; on a miss, fetch remotely, write the icon to
the cache, then return it. -/
def icon (url : String) (env : IconEnv) : IconResult :=
  match (icon_cached (sha1_base32 (strBytes url)) env.cacheFile env.decode).result with
  | Except.error e => ⟨Except.error e, []⟩
  | Except.ok (some img) => ⟨Except.ok img, []⟩
  | Except.ok none =>
    match env.remote with
    | Except.error e => ⟨Except.error e, []⟩
    | Except.ok img =>
      match cache_icon url img env with
      | Except.error e => ⟨Except.error e, []⟩
      | Except.ok writes => ⟨Except.ok img, writes⟩

/-! ## Resize dimensions

`build_site_icons` calls `DynamicImage::resize(size, size, Lanczos3)`, which
preserves aspect ratio: it computes `image::math::resize_dimensions(width,
height, nwidth, nheight, fill = false)` — ratios in `f64` (exact on all inputs
relevant here, modelled over `ℚ`), `round()` half away from zero (all values
positive, so `⌊x + 1/2⌋`), a floor of 1, and a `u32::MAX` clamp. -/

/-- Rust `f64::round` for non-negative values, into `Nat`. -/
def roundq (x : ℚ) : Nat := (Int.floor (x + 1 / 2)).toNat

/-- `u32::MAX`. -/
def u32Max : Nat := 4294967295

/-- `image` crate `resize_dimensions` with `fill = false` (aspect-ratio
preserving, fitting within the bounds). -/
def resize_dimensions (width height nwidth nheight : Nat) : Nat × Nat :=
  let wratio : ℚ := (nwidth : ℚ) / (width : ℚ)
  let hratio : ℚ := (nheight : ℚ) / (height : ℚ)
  let ratio := min wratio hratio
  let nw := max (roundq ((width : ℚ) * ratio)) 1
  let nh := max (roundq ((height : ℚ) * ratio)) 1
  if u32Max < nw then
    let r2 : ℚ := (u32Max : ℚ) / (width : ℚ)
    (u32Max, max (roundq ((height : ℚ) * r2)) 1)
  else if u32Max < nh then
    let r2 : ℚ := (u32Max : ℚ) / (height : ℚ)
    (max (roundq ((width : ℚ) * r2)) 1, u32Max)
  else (nw, nh)

/-- The resampling filters of `image::imageops::FilterType`. -/
inductive FilterTy where
  | nearest
  | triangle
  | catmullRom
  | gaussian
  | lanczos3
deriving Repr, DecidableEq

/-- The filter passed at the `resize` call sites. -/
def resize_call_filter : FilterTy := FilterTy.lanczos3

/-- The target size passed to `build_site_icons` by the builder. -/
def icon_size : Nat := 24

/-- Dimensions of the image handed to brightness check / re-encode / CSS
emission: what `img.resize(size, size, Lanczos3)` produces for a `w × h`
input. -/
def resized_dims (w h : Nat) : Nat × Nat := resize_dimensions w h icon_size icon_size

/-! ## PNG re-encode error mapping

Both crates map a failure of `img.write_to(&mut writer, Png)` with
`SiteIconError::IconDecode(e, url)` — not `IconEncode`. -/

/-- The re-encode step of `build_site_icons`: the encoder's outcome is
environment-supplied; its error is wrapped as `IconDecode(url)`. -/
def encode_png_step (url : String) (encodeResult : Option (List Nat)) :
    Except SiteIconError (List Nat) :=
  match encodeResult with
  | some bytes => Except.ok bytes
  | none => Except.error (SiteIconError.iconDecode url)

/-! ## Repository synchronization (`do_merge`, `normal_merge`, `fast_forward`)

The git operations are modelled by their effects on an abstract repository
state; every underlying `git2` call is taken to succeed (the claims are about
which effects the control flow performs, and the code propagates any `git2`
failure unchanged). -/

/-- Merge analysis outcome (`repo.merge_analysis`). -/
inductive MergeAnalysis where
  | fastForward
  | normal
  | upToDate
deriving Repr, DecidableEq

/-- Observable repository effects: local branch target, HEAD, and counters of
merge commits and checkouts. -/
structure RepoState where
  branchRef : Option Nat
  headRef : Option String
  commitsCreated : Nat
  forcedCheckouts : Nat
  headCheckouts : Nat
  indexCheckouts : Nat
deriving Repr, DecidableEq

/-- `fast_forward`: set the local branch reference to the fetched commit, set
HEAD to the branch, forced `checkout_head`. -/
def fast_forward (branchName : String) (fetchId : Nat) (st : RepoState) : RepoState :=
  { st with
    branchRef := some fetchId
    headRef := some branchName
    forcedCheckouts := st.forcedCheckouts + 1 }

/-- `normal_merge`: if the merged index has conflicts, check out the index
and return `Ok` without committing; otherwise create a merge commit and check
out HEAD. -/
def normal_merge (hasConflicts : Bool) (st : RepoState) : Except Unit RepoState :=
  if hasConflicts then
    Except.ok { st with indexCheckouts := st.indexCheckouts + 1 }
  else
    Except.ok
      { st with
        commitsCreated := st.commitsCreated + 1
        headCheckouts := st.headCheckouts + 1 }

/-- `do_merge`: dispatch on the merge analysis. On fast-forward with an
existing local branch run `fast_forward`; with no local branch, set the
reference directly and do a forced checkout; on a normal merge run
`normal_merge`; otherwise no-op. -/
def do_merge (analysis : MergeAnalysis) (branchExists : Bool) (branchName : String)
    (fetchId : Nat) (hasConflicts : Bool) (st : RepoState) : Except Unit RepoState :=
  match analysis with
  | MergeAnalysis.fastForward =>
    if branchExists then Except.ok (fast_forward branchName fetchId st)
    else
      Except.ok
        { st with
          branchRef := some fetchId
          headRef := some branchName
          forcedCheckouts := st.forcedCheckouts + 1 }
  | MergeAnalysis.normal => normal_merge hasConflicts st
  | MergeAnalysis.upToDate => Except.ok st

/-! ## Symbol extractor (`load_icon`, `to_symbol_def`) -/

/-- `SvgIconError`; payloads reduced to name, style and path components. -/
inductive SvgIconError where
  | output
  | cacheDir
  | makeDir
  | repo
  | iconLoad (name style : String) (path : List String)
  | iconNotFound (name style : String) (path : List String)
deriving Repr, DecidableEq

/-- `repo_dir.join("svg").join(style).join(name + ".svg")` as components. -/
def icon_path (repoDir : List String) (name style : String) : List String :=
  repoDir ++ ["svg", style, name ++ ".svg"]

/-- State of the icon file for one `load_icon` call: whether the path exists
and, if so, whether its content is readable. -/
structure FsFile where
  pathExists : Bool
  content : Option (List Nat)

/-- `load_icon`: read `svg/<style>/<name>.svg`; `IconNotFound` when absent,
`IconLoad` when present but unreadable. -/
def load_icon (repoDir : List String) (name style : String) (file : FsFile) :
    Except SvgIconError (List Nat) :=
  if file.pathExists then
    match file.content with
    | some src => Except.ok src
    | none => Except.error (SvgIconError.iconLoad name style (icon_path repoDir name style))
  else Except.error (SvgIconError.iconNotFound name style (icon_path repoDir name style))

/-- The fixed opening tag stripped by `to_symbol_def`. -/
def remove_start : List Nat :=
  strBytes "<svg xmlns=\"http://www.w3.org/2000/svg\" width=\"24\" height=\"24\""

/-- The fixed closing tag stripped by `to_symbol_def`. -/
def remove_end : List Nat := strBytes "</svg>"

/-- `to_symbol_def`: byte-slice away the fixed opening and closing tags and
wrap what remains in a `symbol` element carrying `svg_icon_id name style`. -/
def to_symbol_def (src : List Nat) (name style : String) : List Nat :=
  let id := svg_icon_id name style
  let add_start := strBytes ("<symbol id=\"" ++ id ++ "\"")
  let add_end := strBytes "</symbol>"
  let middle :=
    (src.drop remove_start.length).take (src.length - remove_end.length - remove_start.length)
  add_start ++ middle ++ add_end

/-! ## Theorems -/

/-- C10: `svg_icon_id` joins name and style with a single space before
hashing, so the distinct references `(name="a b", style="c")` and
`(name="a", style="b c")` hash the identical string and share one symbol id —
no SHA-1 collision is involved, the hashed inputs coincide. -/
theorem c10_svg_icon_id_aliasing :
    (("a b", "c") : String × String) ≠ ("a", "b c") ∧
    "a b" ++ " " ++ "c" = "a" ++ " " ++ "b c" ∧
    svg_icon_id "a b" "c" = svg_icon_id "a" "b c" :=
  ⟨by simp, rfl, rfl⟩

/-- C2: with `invert_low_contrast_icons` enabled, the RGB channels are
inverted iff `(dark ∧ brightness < 0.25) ∨ (¬dark ∧ brightness > 0.75)`, and
both boundary brightness values `0.25` (dark) and `0.75` (light) trigger no
inversion. -/
theorem c2_inversion_thresholds (dark : Bool) (b : ℚ) (img : List Pixel) :
    (invert_decision true dark b = true ↔
      (dark = true ∧ b < 1 / 4) ∨ (dark = false ∧ 3 / 4 < b)) ∧
    invert_decision true true (1 / 4) = false ∧
    invert_decision true false (3 / 4) = false ∧
    apply_inversion true dark img =
      (if invert_decision true dark (avg_brightness img) then img.map invertPixel
       else img) := by
  refine ⟨?_, ?_, ?_, rfl⟩
  · cases dark <;> simp [invert_decision] <;> norm_num
  · norm_num [invert_decision]
  · norm_num [invert_decision]

/-- C8: PNG re-encoding failure in `build_site_icons` is wrapped as
`IconDecode(url)` — the documented `IconEncode` variant is never produced by
the re-encode step, contradicting the claim that encode failures carry
`IconEncode`. -/
theorem c8_encode_error_is_icon_decode (url : String) :
    encode_png_step url none = Except.error (SiteIconError.iconDecode url) ∧
    (∀ u : String, SiteIconError.iconDecode url ≠ SiteIconError.iconEncode u) ∧
    (∀ bytes : List Nat, encode_png_step url (some bytes) = Except.ok bytes) :=
  ⟨rfl, fun u => by simp, fun _ => rfl⟩

/-- C5: on a fast-forwardable analysis with the local branch present, sync
sets the local branch reference to the fetched tip, performs one forced
checkout, and creates no merge commit; when the merge index has conflicts,
the conflicted index is checked out and sync returns `Ok` without creating
any commit. -/
theorem c5_sync_fast_forward_and_conflicts (branchName : String) (fetchId : Nat)
    (branchExists : Bool) (hasConflicts : Bool) (st : RepoState) :
    do_merge MergeAnalysis.fastForward true branchName fetchId hasConflicts st =
      Except.ok (fast_forward branchName fetchId st) ∧
    (fast_forward branchName fetchId st).branchRef = some fetchId ∧
    (fast_forward branchName fetchId st).forcedCheckouts = st.forcedCheckouts + 1 ∧
    (fast_forward branchName fetchId st).commitsCreated = st.commitsCreated ∧
    do_merge MergeAnalysis.normal branchExists branchName fetchId true st =
      Except.ok { st with indexCheckouts := st.indexCheckouts + 1 } ∧
    ({ st with indexCheckouts := st.indexCheckouts + 1 } : RepoState).commitsCreated =
      st.commitsCreated :=
  ⟨rfl, rfl, rfl, rfl, rfl, rfl⟩

/-- C6: the extractor reads `svg/<style>/<name>.svg` under the repository
root, failing with `IconNotFound(name, style, path)` when absent and
`IconLoad` when present but unreadable; on content of the form
`remove_start ++ inner ++ "</svg>"` it produces
`<symbol id="<svg_icon_id name style>"` followed by the unchanged inner
markup and `</symbol>`. -/
theorem c6_load_icon_and_symbol_rewrite (repoDir : List String) (name style : String)
    (inner content : List Nat) :
    load_icon repoDir name style ⟨false, none⟩ =
      Except.error (SvgIconError.iconNotFound name style (icon_path repoDir name style)) ∧
    load_icon repoDir name style ⟨true, none⟩ =
      Except.error (SvgIconError.iconLoad name style (icon_path repoDir name style)) ∧
    load_icon repoDir name style ⟨true, some content⟩ = Except.ok content ∧
    to_symbol_def (remove_start ++ inner ++ remove_end) name style =
      strBytes ("<symbol id=\"" ++ svg_icon_id name style ++ "\"") ++ inner ++
        strBytes "</symbol>" := by
  refine ⟨rfl, rfl, rfl, ?_⟩
  have h1 : (remove_start ++ inner ++ remove_end).drop remove_start.length =
      inner ++ remove_end := by
    rw [List.append_assoc, List.drop_left]
  have h2 : (remove_start ++ inner ++ remove_end).length - remove_end.length -
      remove_start.length = inner.length := by
    simp only [List.length_append]
    omega
  simp only [to_symbol_def, h1, h2, List.take_left]

/-- Folding additions of `f` over a list sums the mapped list. -/
theorem foldl_add_map (f : Nat → ℚ) : ∀ (l : List Nat) (x : ℚ),
    l.foldl (fun a v => a + f v) x = x + (l.map f).sum := by
  intro l
  induction l with
  | nil => simp
  | cons hd tl ih =>
    intro x
    simp [ih, add_assoc]

/-- Pulling the common divisors out of a summed list. -/
theorem sum_cast_div (l : List Nat) (c : ℚ) :
    (l.map (fun v : Nat => (v : ℚ) / c / 255)).sum = (l.map (fun v : Nat => (v : ℚ))).sum / c / 255 := by
  induction l with
  | nil =>
    simp only [List.map_nil, List.sum_nil, zero_div]
  | cons hd tl ih =>
    simp only [List.map_cons, List.sum_cons, ih, add_div]

/-- A sum of casts of naturals is nonnegative. -/
theorem sum_cast_nonneg (l : List Nat) : 0 ≤ (l.map (fun v : Nat => (v : ℚ))).sum := by
  induction l with
  | nil =>
    simp only [List.map_nil, List.sum_nil, le_refl]
  | cons hd tl ih =>
    simp only [List.map_cons, List.sum_cons]
    have h1 : (0 : ℚ) ≤ (hd : ℚ) := Nat.cast_nonneg hd
    linarith

/-- A sum of naturals each at most 255 is at most `255 * length`. -/
theorem sum_cast_le (l : List Nat) (hb : ∀ v ∈ l, v ≤ 255) :
    (l.map (fun v : Nat => (v : ℚ))).sum ≤ (l.length : ℚ) * 255 := by
  induction l with
  | nil => simp
  | cons hd tl ih =>
    have h1 : (hd : ℚ) ≤ 255 := by
      exact_mod_cast hb hd (List.mem_cons_self hd tl)
    have h2 := ih (fun v hv => hb v (List.mem_cons_of_mem hd hv))
    simp only [List.map_cons, List.sum_cons, List.length_cons]
    push_cast
    linarith

/-- Every visible value is at most 255 when the channels are bytes. -/
theorem visibleValues_le (ps : List Pixel)
    (hch : ∀ p ∈ ps, p.r ≤ 255 ∧ p.g ≤ 255 ∧ p.b ≤ 255) :
    ∀ v ∈ visibleValues ps, v ≤ 255 := by
  intro v hv
  simp only [visibleValues, List.mem_filterMap] at hv
  obtain ⟨p, hp, he⟩ := hv
  split_ifs at he with ha
  obtain ⟨hr, hg, hb⟩ := hch p hp
  obtain rfl : pixelThirds p = v := Option.some.inj he
  unfold pixelThirds
  omega

/-- Closed form of `avg_brightness`: the sum of the visible values divided by
the count and 255. -/
theorem avg_brightness_closed (ps : List Pixel) :
    avg_brightness ps =
      ((visibleValues ps).map (fun v : Nat => (v : ℚ))).sum /
        ((visibleValues ps).length : ℚ) / 255 := by
  unfold avg_brightness
  rw [foldl_add_map (fun val => (val : ℚ) / ((visibleValues ps).length : ℚ) / 255),
    zero_add, sum_cast_div]

/-- C3 (counterexample): on the single opaque pixel `(1,1,1,255)` the code's
brightness is `0` (per-channel truncated division `1/3 = 0`), while the
claimed mean of `(R+G+B)/3` normalized by 255 is `1/255`; the two disagree. -/
theorem c3_brightness_counterexample :
    avg_brightness [⟨1, 1, 1, 255⟩] = 0 ∧
    avg_brightness_specMean [⟨1, 1, 1, 255⟩] = 1 / 255 ∧
    avg_brightness [⟨1, 1, 1, 255⟩] ≠ avg_brightness_specMean [⟨1, 1, 1, 255⟩] := by
  refine ⟨?_, ?_, ?_⟩
  · norm_num [avg_brightness, visibleValues, pixelThirds, List.filterMap_cons]
  · norm_num [avg_brightness_specMean, List.filterMap_cons]
  · norm_num [avg_brightness, avg_brightness_specMean, visibleValues, pixelThirds,
      List.filterMap_cons]

/-- C3 (amended): `avg_brightness` averages, over exactly the pixels whose
alpha exceeds 32, the per-pixel value `⌊R/3⌋ + ⌊G/3⌋ + ⌊B/3⌋` (truncated
per-channel thirds, not `(R+G+B)/3`) normalized by 255; the result lies in
`[0,1]`, and an image with no pixel above the alpha threshold yields exactly
`0`. -/
theorem c3_brightness_amended (ps : List Pixel)
    (hch : ∀ p ∈ ps, p.r ≤ 255 ∧ p.g ≤ 255 ∧ p.b ≤ 255) :
    avg_brightness ps =
      ((visibleValues ps).map (fun v : Nat => (v : ℚ))).sum /
        ((visibleValues ps).length : ℚ) / 255 ∧
    0 ≤ avg_brightness ps ∧ avg_brightness ps ≤ 1 ∧
    (visibleValues ps = [] → avg_brightness ps = 0) := by
  have hclosed := avg_brightness_closed ps
  refine ⟨hclosed, ?_, ?_, ?_⟩
  · rw [hclosed]
    have := sum_cast_nonneg (visibleValues ps)
    positivity
  · rcases eq_or_ne (visibleValues ps) [] with hnil | hne
    · rw [hclosed, hnil]
      norm_num
    · have hlen : 0 < ((visibleValues ps).length : ℚ) := by
        have := List.length_pos.mpr hne
        exact_mod_cast this
      rw [hclosed, div_div, div_le_one (by positivity)]
      calc ((visibleValues ps).map (fun v : Nat => (v : ℚ))).sum
          ≤ ((visibleValues ps).length : ℚ) * 255 :=
            sum_cast_le _ (visibleValues_le ps hch)
        _ = ((visibleValues ps).length : ℚ) * 255 := rfl
  · intro hnil
    rw [hclosed, hnil]
    norm_num

set_option maxRecDepth 100000 in
/-- Sanity: the embedded `sha1_base32` agrees with the standard SHA-1 test
vector `"abc"` (digest `a9993e36…`, base32hex `l6cjsdi7…`). -/
theorem sha1_base32_known_vector : sha1_base32 (strBytes "abc") = "l6cjsdi7" := by
  decide

/-- `roundq` of a value at most 24 is at most 24. -/
theorem roundq_le_24 (x : ℚ) (hx : x ≤ 24) : roundq x ≤ 24 := by
  unfold roundq
  rw [Int.toNat_le]
  have h1 : (x + 1 / 2 : ℚ) < 25 := by linarith
  have h2 : (⌊x + 1 / 2⌋ : ℤ) < 25 := Int.floor_lt.mpr (by exact_mod_cast h1)
  omega

/-- `roundq` fixes the integer 24. -/
theorem roundq_24 : roundq 24 = 24 := by
  unfold roundq
  have h : ⌊(24 + 1 / 2 : ℚ)⌋ = 24 := by
    rw [Int.floor_eq_iff]
    norm_num
  rw [h]
  rfl

/-- C7 (counterexample): a 32 × 16 icon is resized to 24 × 12, not to the
claimed exact 24 × 24 — `DynamicImage::resize` preserves aspect ratio. -/
theorem c7_resize_counterexample :
    resized_dims 32 16 = (24, 12) ∧ resized_dims 32 16 ≠ (icon_size, icon_size) := by
  norm_num [resized_dims, resize_dimensions, roundq, icon_size, u32Max, min_def]
  decide

/-- C7 (amended): the image that is brightness-checked, re-encoded and
emitted is resized with the Lanczos3 filter to the largest dimensions fitting
within `size × size` (24 × 24) preserving aspect ratio: both dimensions are
between 1 and 24, and they equal exactly 24 × 24 when the decoded icon is
square. -/
theorem c7_resize_amended (w h : Nat) (hw : 0 < w) (hh : 0 < h) :
    (resized_dims w h).1 ≤ icon_size ∧ (resized_dims w h).2 ≤ icon_size ∧
    1 ≤ (resized_dims w h).1 ∧ 1 ≤ (resized_dims w h).2 ∧
    (w = h → resized_dims w h = (icon_size, icon_size)) ∧
    resize_call_filter = FilterTy.lanczos3 := by
  have hwq : (0 : ℚ) < (w : ℚ) := by exact_mod_cast hw
  have hhq : (0 : ℚ) < (h : ℚ) := by exact_mod_cast hh
  have hrw : (w : ℚ) * min ((24 : ℚ) / w) ((24 : ℚ) / h) ≤ 24 := by
    have h1 : min ((24 : ℚ) / w) ((24 : ℚ) / h) ≤ (24 : ℚ) / w := min_le_left _ _
    have h2 : (w : ℚ) * ((24 : ℚ) / w) = 24 := by field_simp
    nlinarith
  have hrh : (h : ℚ) * min ((24 : ℚ) / w) ((24 : ℚ) / h) ≤ 24 := by
    have h1 : min ((24 : ℚ) / w) ((24 : ℚ) / h) ≤ (24 : ℚ) / h := min_le_right _ _
    have h2 : (h : ℚ) * ((24 : ℚ) / h) = 24 := by field_simp
    nlinarith
  have hnw : max (roundq ((w : ℚ) * min ((24 : ℚ) / w) ((24 : ℚ) / h))) 1 ≤ 24 :=
    max_le (roundq_le_24 _ hrw) (by norm_num)
  have hnh : max (roundq ((h : ℚ) * min ((24 : ℚ) / w) ((24 : ℚ) / h))) 1 ≤ 24 :=
    max_le (roundq_le_24 _ hrh) (by norm_num)
  have hc1 : ¬(u32Max < max (roundq ((w : ℚ) * min ((24 : ℚ) / w) ((24 : ℚ) / h))) 1) := by
    unfold u32Max
    omega
  have hc2 : ¬(u32Max < max (roundq ((h : ℚ) * min ((24 : ℚ) / w) ((24 : ℚ) / h))) 1) := by
    unfold u32Max
    omega
  have hres : resized_dims w h =
      (max (roundq ((w : ℚ) * min ((24 : ℚ) / w) ((24 : ℚ) / h))) 1,
        max (roundq ((h : ℚ) * min ((24 : ℚ) / w) ((24 : ℚ) / h))) 1) := by
    simp only [resized_dims, resize_dimensions, icon_size]
    push_cast
    rw [if_neg hc1, if_neg hc2]
  refine ⟨?_, ?_, ?_, ?_, ?_, rfl⟩
  · rw [hres]
    exact le_trans hnw (by norm_num [icon_size])
  · rw [hres]
    exact le_trans hnh (by norm_num [icon_size])
  · rw [hres]
    exact le_max_right _ 1
  · rw [hres]
    exact le_max_right _ 1
  · intro heq
    subst heq
    rw [hres]
    have hmin : min ((24 : ℚ) / w) ((24 : ℚ) / w) = (24 : ℚ) / w := min_self _
    rw [hmin]
    have h2 : (w : ℚ) * ((24 : ℚ) / w) = 24 := by field_simp
    rw [h2, roundq_24]
    rfl

/-- C7 witness: the amended resize theorem applied at the concrete 32 × 16
input (which lands at 24 × 12). -/
theorem c7_resize_amended_witness :
    (resized_dims 32 16).1 ≤ icon_size ∧ (resized_dims 32 16).2 ≤ icon_size ∧
    1 ≤ (resized_dims 32 16).1 ∧ 1 ≤ (resized_dims 32 16).2 ∧
    (32 = 16 → resized_dims 32 16 = (icon_size, icon_size)) ∧
    resize_call_filter = FilterTy.lanczos3 :=
  c7_resize_amended 32 16 (by norm_num) (by norm_num)

/-- C4: the `favicon.ico` preference of the resolver does not filter out SVG
entries: on the entry list containing exactly one entry, declared SVG with
URL path `/favicon.ico`, the selection picks it and execution reaches the
`unreachable!("SVGs should be filtered out")` decoder branch instead of the
`IconNotFound` failure the claim requires for an all-SVG list. -/
theorem c4_svg_favicon_reaches_decoder :
    List.all [IconEntry.mk (strBytes "/favicon.ico") IconInfo.svg]
      (fun e => e.info == IconInfo.svg) = true ∧
    icon_remote_select [IconEntry.mk (strBytes "/favicon.ico") IconInfo.svg] =
      RemoteSelect.panicked ∧
    icon_remote_select [IconEntry.mk (strBytes "/favicon.ico") IconInfo.svg] ≠
      RemoteSelect.notFound := by
  refine ⟨by decide, by decide, by decide⟩

/-- C1: for an existing cache file — a readable creation age of at least the
7-day TTL deletes the file and reports a miss regardless of whether the
deletion succeeds; an age below the TTL returns the stored, decoded entry;
an unavailable metadata / creation-time / elapsed step is treated as not
expired and the entry is still returned; and an error arises only when the
content is unreadable or fails to decode. -/
theorem c1_cache_ttl (path : String) (decode : List Nat → Option (List Pixel))
    (elapsed : Nat) (removeOk : Bool) (meta : Option (Option (Option Nat)))
    (bytes : List Nat) (img : List Pixel) :
    (ttlSecs ≤ elapsed →
      ∀ content, icon_cached path ⟨true, some (some (some elapsed)), removeOk, content⟩ decode =
        ⟨Except.ok none, true⟩) ∧
    (elapsed < ttlSecs → decode bytes = some img →
      icon_cached path ⟨true, some (some (some elapsed)), removeOk, some bytes⟩ decode =
        ⟨Except.ok (some img), false⟩) ∧
    ((meta = none ∨ meta = some none ∨ meta = some (some none)) →
      decode bytes = some img →
      icon_cached path ⟨true, meta, removeOk, some bytes⟩ decode =
        ⟨Except.ok (some img), false⟩) ∧
    (∀ (e : SiteIconError) (file : CacheFile),
      (icon_cached path file decode).result = Except.error e →
      file.content = none ∨ ∃ bs, file.content = some bs ∧ decode bs = none) := by
  refine ⟨?_, ?_, ?_, ?_⟩
  · intro hts content
    simp [icon_cached, hts]
  · intro hts hdec
    have hnot : ¬(ttlSecs ≤ elapsed) := by omega
    simp [icon_cached, hnot, hdec]
  · intro hmeta hdec
    rcases hmeta with rfl | rfl | rfl <;> simp [icon_cached, hdec]
  · intro e file herr
    obtain ⟨pe, m, ro, c⟩ := file
    cases pe
    · simp [icon_cached] at herr
    · rcases m with _ | m
      · cases c with
        | none => exact Or.inl rfl
        | some bs =>
          cases hd : decode bs with
          | none => exact Or.inr ⟨bs, rfl, hd⟩
          | some i => simp [icon_cached, hd] at herr
      · rcases m with _ | m
        · cases c with
          | none => exact Or.inl rfl
          | some bs =>
            cases hd : decode bs with
            | none => exact Or.inr ⟨bs, rfl, hd⟩
            | some i => simp [icon_cached, hd] at herr
        · rcases m with _ | el
          · cases c with
            | none => exact Or.inl rfl
            | some bs =>
              cases hd : decode bs with
              | none => exact Or.inr ⟨bs, rfl, hd⟩
              | some i => simp [icon_cached, hd] at herr
          · by_cases hex : ttlSecs ≤ el
            · simp [icon_cached, hex] at herr
            · cases c with
              | none => exact Or.inl rfl
              | some bs =>
                cases hd : decode bs with
                | none => exact Or.inr ⟨bs, rfl, hd⟩
                | some i => simp [icon_cached, hex, hd] at herr

/-- C1 witness: the TTL theorem applied at a concrete lookup — age exactly
the TTL with a failing `remove_file` (conjunct 1), a fresh entry (conjunct
2), an unreadable metadata chain (conjunct 3), and the error
characterization at an unreadable file (conjunct 4). -/
theorem c1_cache_ttl_witness :
    (ttlSecs ≤ 604800 →
      ∀ content,
        icon_cached "p" ⟨true, some (some (some 604800)), false, content⟩
          (fun _ => some []) = ⟨Except.ok none, true⟩) ∧
    (604800 < ttlSecs → (fun _ : List Nat => some ([] : List Pixel)) [] = some [] →
      icon_cached "p" ⟨true, some (some (some 604800)), false, some []⟩
        (fun _ => some []) = ⟨Except.ok (some []), false⟩) ∧
    (((none : Option (Option (Option Nat))) = none ∨
        (none : Option (Option (Option Nat))) = some none ∨
        (none : Option (Option (Option Nat))) = some (some none)) →
      (fun _ : List Nat => some ([] : List Pixel)) [] = some [] →
      icon_cached "p" ⟨true, none, false, some []⟩ (fun _ => some []) =
        ⟨Except.ok (some []), false⟩) ∧
    (∀ (e : SiteIconError) (file : CacheFile),
      (icon_cached "p" file (fun _ => some [])).result = Except.error e →
      file.content = none ∨
        ∃ bs, file.content = some bs ∧ (fun _ : List Nat => some ([] : List Pixel)) bs = none) :=
  c1_cache_ttl "p" (fun _ => some []) 604800 false none [] []

/-- C9: on a cache miss, the remotely fetched icon is decoded, re-encoded as
PNG, and written to the site-icon cache under the key
`sha1_base32(url)` before `icon` returns the decoded image. -/
theorem c9_cache_writeback (url : String) (env : IconEnv) (img : List Pixel)
    (hmiss : (icon_cached (sha1_base32 (strBytes url)) env.cacheFile env.decode).result =
      Except.ok none)
    (hremote : env.remote = Except.ok img)
    (hwrite : env.cacheWriteOk = true) :
    icon url env = ⟨Except.ok img, [(sha1_base32 (strBytes url), env.pngEncode img)]⟩ := by
  unfold icon
  rw [hmiss, hremote]
  unfold cache_icon
  rw [hwrite]
  simp

/-- Concrete environment for the C9 witness: empty cache, successful remote
fetch of the empty image, trivial codec, successful cache write. -/
def c9Env : IconEnv :=
  ⟨⟨false, none, false, none⟩, fun _ => none, Except.ok [], fun _ => [0], true⟩

/-- C9 witness: the write-back theorem applied to a concrete miss. -/
theorem c9_cache_writeback_witness :
    icon "https://example.com" c9Env =
      ⟨Except.ok [], [(sha1_base32 (strBytes "https://example.com"),
        c9Env.pngEncode [])]⟩ :=
  c9_cache_writeback "https://example.com" c9Env [] rfl rfl rfl

/-- C3 witness: the amended theorem applied at a concrete two-pixel image,
one visible pixel `(10, 20, 33, 255)` and one excluded by alpha `(255, 255,
255, 32)`. -/
theorem c3_brightness_amended_witness :
    avg_brightness [⟨10, 20, 33, 255⟩, ⟨255, 255, 255, 32⟩] =
      ((visibleValues [⟨10, 20, 33, 255⟩, ⟨255, 255, 255, 32⟩]).map
        (fun v : Nat => (v : ℚ))).sum /
        ((visibleValues [⟨10, 20, 33, 255⟩, ⟨255, 255, 255, 32⟩]).length : ℚ) / 255 ∧
    0 ≤ avg_brightness [⟨10, 20, 33, 255⟩, ⟨255, 255, 255, 32⟩] ∧
    avg_brightness [⟨10, 20, 33, 255⟩, ⟨255, 255, 255, 32⟩] ≤ 1 ∧
    (visibleValues [⟨10, 20, 33, 255⟩, ⟨255, 255, 255, 32⟩] = [] →
      avg_brightness [⟨10, 20, 33, 255⟩, ⟨255, 255, 255, 32⟩] = 0) :=
  c3_brightness_amended [⟨10, 20, 33, 255⟩, ⟨255, 255, 255, 32⟩] (by decide)

end Neutab
